import Mathlib

/-!
# Verification of the jQuery Tabs 2.5.1 plugin (`src/plugins/tabs/tabs.js`)

Shallow embedding of the tab widget's observable state and operations.

A tab container holds `n` tab links (each inside its own `li` of the first
`ul`) and `m` content sections (the children matching the `tabStruct`
selector).  Each link's `hash` resolves, via the DOM id lookup `$(this.hash)`,
to at most one content section; we model this resolution as a function
`target : Nat → Option Nat` from tab index to section index.

Mutable widget state is the set of CSS state classes the plugin toggles:
`selectedClass` on each `li`, `disabledClass` on each `li`, and `hideClass`
on each section (a section is visible iff it does not carry `hideClass`;
the plugin always clears inline `display` overrides when a transition
completes, so at every settled state the class alone decides visibility).

Browser-quirk workarounds (IE/Safari/Opera branches, scroll restoration,
focus blur, the temporary id removal) and the user callbacks
`onClick`/`onHide`/`onShow` do not touch this state and are not modelled;
of the `triggerTab` handler's browser branches we model the plain
`$(this).click()` path, which is the one that acts on widget state directly
(the bookmarkable path routes the same click through the external history
service).
-/

namespace Tabs

/-- Static description of one tab container: number of tab links `n`,
number of content sections `m`, the resolution of each link's fragment to
a section (`$(this.hash)`), and the `bookmarkable` setting. -/
structure Config where
  n : Nat
  m : Nat
  target : Nat → Option Nat
  bookmarkable : Bool

/-- The CSS state classes of one container: `selected.getD i false` is
whether `li` number `i` carries `selectedClass`, `disabled` likewise for
`disabledClass`, and `hidden.getD j true` is whether section `j` carries
`hideClass` (i.e. is not `:visible`). -/
structure State where
  selected : List Bool
  disabled : List Bool
  hidden : List Bool
deriving DecidableEq

/-- The click handler (tabs.js lines 363-432), restricted to its effect on
widget state.  Guards in source order: the `disabledClass` check (line 367),
the `selectedClass` check (line 371), the `toShow.size() > 0` check
(line 374).  In the success branch, at hide-animation completion the clicked
`li` gets `selectedClass` and its siblings lose it (line 397); `toShow`
loses `hideClass` before the show animation (line 401) and, at
show-animation completion, every section that was `:visible` at click time
(`toHide`, line 386) gets `hideClass` (line 403) — so a section visible at
click time ends hidden even if it is the target. -/
def click (cfg : Config) (st : State) (i : Nat) : State :=
  if st.disabled.getD i false then st
  else if st.selected.getD i false then st
  else
    match cfg.target i with
    | none => st
    | some t =>
        { selected := (List.range st.selected.length).map (fun k => decide (k = i))
          disabled := st.disabled
          hidden := (List.range st.hidden.length).map (fun j =>
              if st.hidden.getD j true = false then true
              else if j = t then false
              else st.hidden.getD j true) }

/-- The click handler's return value: `false` from the disabled guard
(line 368), otherwise `settings.bookmarkable` (line 430). -/
def clickRet (cfg : Config) (st : State) (i : Nat) : Bool :=
  if st.disabled.getD i false then false else cfg.bookmarkable

/-- Whether the click handler raises the `alert('There is no such
container.')` notification (line 416): only in the branch where the tab is
neither disabled nor selected and `$(this.hash)` is empty. -/
def clickAlert (cfg : Config) (st : State) (i : Nat) : Bool :=
  if st.disabled.getD i false then false
  else if st.selected.getD i false then false
  else
    match cfg.target i with
    | none => true
    | some _ => false

/-- The per-tab `triggerTab` handler (lines 303-336): acts only if the
target section is `:hidden` and the tab's `li` is not disabled
(`$(hash).is(':hidden')` is `false` on an empty selection, so a missing
target is a no-op), in which case it performs the click. -/
def triggerTab (cfg : Config) (st : State) (i : Nat) : State :=
  match cfg.target i with
  | none => st
  | some t =>
      if st.hidden.getD t true && !(st.disabled.getD i false) then click cfg st i
      else st

/-- Whether a `triggerTab` on tab `i` raises the alert: it can only re-enter
`click`, whose alert branch needs a missing target, while the `triggerTab`
guard needs an existing one. -/
def triggerTabAlert (cfg : Config) (st : State) (i : Nat) : Bool :=
  match cfg.target i with
  | none => false
  | some t =>
      if st.hidden.getD t true && !(st.disabled.getD i false) then clickAlert cfg st i
      else false

/-- The per-tab `disableTab` handler (lines 339-341): add `disabledClass`
to the tab's `li`. -/
def disableTab (st : State) (i : Nat) : State :=
  { st with disabled := st.disabled.set i true }

/-- The per-tab `enableTab` handler (lines 351-360): remove `disabledClass`
from the tab's `li` (the Safari fade workaround does not touch the state
classes). -/
def enableTab (st : State) (i : Nat) : State :=
  { st with disabled := st.disabled.set i false }

/-- The index computation of the three plugin commands (line 495):
`var i = tabIndex && tabIndex > 0 && tabIndex - 1 || 0`.  `none` models an
omitted argument (`undefined`, falsy); a number `v` yields `v - 1` when
`0 < v` (for `v = 1` the subexpression `0` is falsy and `|| 0` yields the
same `0`) and `0` otherwise. -/
def cmdIndex : Option Int → Nat
  | none => 0
  | some v => if 0 < v then (v - 1).toNat else 0

/-- The `triggerTab` command (lines 490-500): `tabs.eq(i)` is empty when
`i` is out of range, so the event fires only when `cmdIndex p < n`. -/
def triggerTabCmd (cfg : Config) (st : State) (p : Option Int) : State :=
  if cmdIndex p < cfg.n then triggerTab cfg st (cmdIndex p) else st

/-- The `disableTab` command (lines 490-500). -/
def disableTabCmd (cfg : Config) (st : State) (p : Option Int) : State :=
  if cmdIndex p < cfg.n then disableTab st (cmdIndex p) else st

/-- The `enableTab` command (lines 490-500). -/
def enableTabCmd (cfg : Config) (st : State) (p : Option Int) : State :=
  if cmdIndex p < cfg.n then enableTab st (cmdIndex p) else st

/-- Whether a `triggerTab` command raises the alert. -/
def triggerTabCmdAlert (cfg : Config) (st : State) (p : Option Int) : Bool :=
  if cmdIndex p < cfg.n then triggerTabAlert cfg st (cmdIndex p) else false

/-- The shared `settings` object of one `.tabs(initial, settings)` call
(lines 138-157), restricted to the fields the claims need.  It is created
once per call and shared by every container the selection holds. -/
structure Settings where
  initial : Nat
  disabled : List Int

/-- Line 139: `initial: (initial && typeof initial == 'number' && initial > 0)
? --initial : 0`.  `none` models an omitted or non-number argument. -/
def defaultInitial : Option Int → Nat
  | none => 0
  | some v => if 0 < v then (v - 1).toNat else 0

/-- The fresh settings at the start of a `.tabs(initial, {disabled: ds})`
call. -/
def mkSettings (initialParam : Option Int) (disabledCfg : List Int) : Settings :=
  { initial := defaultInitial initialParam, disabled := disabledCfg }

/-- One container together with the fragment (`hash`) of each of its tab
links, in document order. -/
structure Container where
  cfg : Config
  hashes : List String

/-- The hash-matching loop of lines 173-188: walk the tab links in order
and stop at the first whose `hash` equals `location.hash` (`return false`
breaks the `each`). -/
def hashMatch (hashes : List String) (h : String) : Option Nat :=
  match hashes with
  | [] => none
  | a :: rest => if a = h then some 0 else (hashMatch rest h).map (· + 1)

/-- Lines 171-189: when `location.hash` is non-empty (`none` models an
empty or absent fragment) and matches a tab link, `settings.initial` is
overwritten with that tab's index; otherwise the incoming value stays. -/
def hashInitial (hashes : List String) (locHash : Option String) (base : Nat) : Nat :=
  match locHash with
  | none => base
  | some h => (hashMatch hashes h).getD base

/-- The initial active index of a single freshly configured container:
hash match first (lines 171-189), else the converted `initial` parameter
(line 139). -/
def initialIndex (initialParam : Option Int) (hashes : List String)
    (locHash : Option String) : Nat :=
  hashInitial hashes locHash (defaultInitial initialParam)

/-- The disabled-from-settings loop of lines 344-348:
`tabs.eq(--settings.disabled[i]).trigger('disableTab')` — each entry is
decremented in place and the tab at the decremented index (if any) is
disabled. -/
def applyDisabledLoop (n : Nat) (st : State) : List Int → State
  | [] => st
  | d :: rest =>
      applyDisabledLoop n
        (if 0 ≤ d - 1 ∧ d - 1 < (n : Int) then disableTab st (d - 1).toNat else st)
        rest

/-- Initialization of one container (the body of `this.each`, lines
167-433, restricted to widget state): resolve the active index from the
hash (mutating `settings.initial`), show section `:eq(initial)` and add
`hideClass` to the rest (line 197; fresh markup carries no state classes,
and when `initial` is out of range nothing is shown and nothing selected),
add `selectedClass` to `li:eq(initial)` (line 199), then run the disabled
loop, whose in-place decrements persist in the shared settings. -/
def initContainer (c : Container) (locHash : Option String) (s : Settings) :
    State × Settings :=
  let init := hashInitial c.hashes locHash s.initial
  let base : State :=
    { selected := (List.range c.cfg.n).map (fun k => decide (k = init))
      disabled := (List.range c.cfg.n).map (fun _ => false)
      hidden := (List.range c.cfg.m).map (fun j => decide (j ≠ init)) }
  (applyDisabledLoop c.cfg.n base s.disabled,
   { initial := init, disabled := s.disabled.map (fun d => d - 1) })

/-- Initialization of a single container from a fresh `.tabs` call. -/
def initState (c : Container) (locHash : Option String) (initialParam : Option Int)
    (disabledCfg : List Int) : State :=
  (initContainer c locHash (mkSettings initialParam disabledCfg)).1

/-- One `.tabs` call over several containers: `this.each` threads the one
shared `settings` object through the containers in order. -/
def initMany (cs : List Container) (locHash : Option String) (s : Settings) :
    List State :=
  match cs with
  | [] => []
  | c :: rest =>
      let r := initContainer c locHash s
      r.1 :: initMany rest locHash r.2

/-- The events a live container can receive: a user click on an existing
tab link (handlers are bound only to the `n` links, line 363), and the
three position-addressed commands. -/
inductive Op where
  | clickTab : Nat → Op
  | trigger : Option Int → Op
  | disable : Option Int → Op
  | enable : Option Int → Op

/-- Effect of one event on the widget state. -/
def applyOp (cfg : Config) (st : State) : Op → State
  | .clickTab i => if i < cfg.n then click cfg st i else st
  | .trigger p => triggerTabCmd cfg st p
  | .disable p => disableTabCmd cfg st p
  | .enable p => enableTabCmd cfg st p

/-- Effect of a sequence of events. -/
def run (cfg : Config) (st : State) (ops : List Op) : State :=
  ops.foldl (applyOp cfg) st

/-- Number of `li` elements carrying `selectedClass`. -/
def selCount (st : State) : Nat := st.selected.count true

/-- Number of visible sections (those not carrying `hideClass`). -/
def visCount (st : State) : Nat := st.hidden.count false

/-- The standard markup contract (spec §6): one section per tab, each tab
link's fragment identifying its own section, in order. -/
def StdTarget (cfg : Config) : Prop :=
  cfg.m = cfg.n ∧ ∀ i, cfg.target i = if i < cfg.n then some i else none

/-- The settled-state invariant: the `li` list and section list both have
the container's size, some in-range index `s` is the unique selected tab,
and `s` is also the unique visible section. -/
def Inv (cfg : Config) (st : State) : Prop :=
  st.disabled.length = cfg.n ∧
  ∃ s, s < cfg.n ∧
    st.selected = (List.range cfg.n).map (fun k => decide (k = s)) ∧
    st.hidden = (List.range cfg.n).map (fun j => decide (j ≠ s))

/-- A one-tab container with standard markup. -/
def cfg1 : Config :=
  { n := 1, m := 1, target := fun i => if i < 1 then some i else none,
    bookmarkable := false }

/-- The one-tab container, its link pointing at `#a`. -/
def cont1 : Container := { cfg := cfg1, hashes := ["#a"] }

/-- A three-tab container with standard markup. -/
def cfg3 : Config :=
  { n := 3, m := 3, target := fun i => if i < 3 then some i else none,
    bookmarkable := false }

/-- The three-tab container with links `#a`, `#b`, `#c`. -/
def cont3 : Container := { cfg := cfg3, hashes := ["#a", "#b", "#c"] }

/-- A second three-tab container with distinct fragments, for multi-container
initialization. -/
def contX : Container := { cfg := cfg3, hashes := ["#x1", "#x2", "#x3"] }

/-- A three-tab container with standard markup and bookmarking enabled. -/
def cfgBook : Config :=
  { n := 3, m := 3, target := fun i => if i < 3 then some i else none,
    bookmarkable := true }

/-- A one-tab container whose link's fragment matches no section. -/
def cfgGap : Config :=
  { n := 1, m := 0, target := fun _ => none, bookmarkable := false }

end Tabs

namespace Tabs

/-! ## Helper lemmas about range/map lists -/

theorem length_range_map (f : Nat → Bool) (n : Nat) :
    ((List.range n).map f).length = n := by
  simp

theorem getD_range_map (f : Nat → Bool) {n j : Nat} (h : j < n) (d : Bool) :
    ((List.range n).map f).getD j d = f j := by
  rw [List.getD_eq_getElem?_getD, List.getElem?_map, List.getElem?_range h]
  rfl

theorem getD_range_map_of_ge (f : Nat → Bool) {n j : Nat} (h : n ≤ j) (d : Bool) :
    ((List.range n).map f).getD j d = d := by
  rw [List.getD_eq_getElem?_getD, List.getElem?_eq_none (by simpa using h)]
  rfl

theorem count_range_map_succ (f : Nat → Bool) (n : Nat) (b : Bool) :
    ((List.range (n + 1)).map f).count b
      = ((List.range n).map f).count b + (if f n = b then 1 else 0) := by
  rw [List.range_succ, List.map_append, List.count_append]
  by_cases hfb : f n = b <;> simp [List.count_singleton, hfb]

theorem count_true_selected_of_ge {n s : Nat} (h : n ≤ s) :
    ((List.range n).map (fun k => decide (k = s))).count true = 0 := by
  induction n with
  | zero => rfl
  | succ n ih =>
    rw [count_range_map_succ, ih (by omega)]
    have hns : n ≠ s := by omega
    simp [hns]

theorem count_true_selected {n s : Nat} (h : s < n) :
    ((List.range n).map (fun k => decide (k = s))).count true = 1 := by
  induction n with
  | zero => omega
  | succ n ih =>
    rw [count_range_map_succ]
    rcases Nat.lt_succ_iff_lt_or_eq.mp h with h' | h'
    · have hns : n ≠ s := by omega
      rw [ih h']
      simp [hns]
    · subst h'
      rw [count_true_selected_of_ge (by omega)]
      simp

theorem count_false_hidden_of_ge {n s : Nat} (h : n ≤ s) :
    ((List.range n).map (fun j => decide (j ≠ s))).count false = 0 := by
  induction n with
  | zero => rfl
  | succ n ih =>
    rw [count_range_map_succ, ih (by omega)]
    have hns : n ≠ s := by omega
    simp [hns]

theorem count_false_hidden {n s : Nat} (h : s < n) :
    ((List.range n).map (fun j => decide (j ≠ s))).count false = 1 := by
  induction n with
  | zero => omega
  | succ n ih =>
    rw [count_range_map_succ]
    rcases Nat.lt_succ_iff_lt_or_eq.mp h with h' | h'
    · have hns : n ≠ s := by omega
      rw [ih h']
      simp [hns]
    · subst h'
      rw [count_false_hidden_of_ge (by omega)]
      simp

end Tabs

namespace Tabs

/-! ## Branch equations for the event handlers -/

theorem click_of_disabled (cfg : Config) (st : State) (i : Nat)
    (hd : st.disabled.getD i false = true) : click cfg st i = st := by
  unfold click
  rw [if_pos hd]

theorem click_of_selected (cfg : Config) (st : State) (i : Nat)
    (hd : st.disabled.getD i false = false)
    (hs : st.selected.getD i false = true) : click cfg st i = st := by
  unfold click
  rw [if_neg (by rw [hd]; simp), if_pos hs]

theorem click_of_no_target (cfg : Config) (st : State) (i : Nat)
    (hd : st.disabled.getD i false = false)
    (hs : st.selected.getD i false = false)
    (ht : cfg.target i = none) : click cfg st i = st := by
  unfold click
  rw [if_neg (by rw [hd]; simp), if_neg (by rw [hs]; simp), ht]

theorem click_of_target (cfg : Config) (st : State) (i t : Nat)
    (hd : st.disabled.getD i false = false)
    (hs : st.selected.getD i false = false)
    (ht : cfg.target i = some t) :
    click cfg st i =
      { selected := (List.range st.selected.length).map (fun k => decide (k = i))
        disabled := st.disabled
        hidden := (List.range st.hidden.length).map (fun j =>
            if st.hidden.getD j true = false then true
            else if j = t then false
            else st.hidden.getD j true) } := by
  unfold click
  rw [if_neg (by rw [hd]; simp), if_neg (by rw [hs]; simp), ht]

theorem triggerTab_of_no_target (cfg : Config) (st : State) (i : Nat)
    (ht : cfg.target i = none) : triggerTab cfg st i = st := by
  unfold triggerTab
  rw [ht]

theorem triggerTab_of_target (cfg : Config) (st : State) (i t : Nat)
    (ht : cfg.target i = some t) :
    triggerTab cfg st i =
      if st.hidden.getD t true && !(st.disabled.getD i false) then click cfg st i
      else st := by
  unfold triggerTab
  rw [ht]

end Tabs

namespace Tabs

/-! ## Invariant preservation -/

theorem inv_click (cfg : Config) (st : State) (i : Nat)
    (hstd : StdTarget cfg) (hi : i < cfg.n) (hinv : Inv cfg st) :
    Inv cfg (click cfg st i) := by
  obtain ⟨hdl, s, hs, hsel, hhid⟩ := hinv
  by_cases hd : st.disabled.getD i false = true
  · rw [click_of_disabled cfg st i hd]
    exact ⟨hdl, s, hs, hsel, hhid⟩
  · rw [Bool.not_eq_true] at hd
    by_cases hsi : st.selected.getD i false = true
    · rw [click_of_selected cfg st i hd hsi]
      exact ⟨hdl, s, hs, hsel, hhid⟩
    · rw [Bool.not_eq_true] at hsi
      have hne : i ≠ s := by
        intro hcon
        rw [hsel, getD_range_map _ hi] at hsi
        simp [hcon] at hsi
      have ht : cfg.target i = some i := by
        rw [hstd.2 i, if_pos hi]
      rw [click_of_target cfg st i i hd hsi ht]
      have hsl : st.selected.length = cfg.n := by rw [hsel]; simp
      have hhl : st.hidden.length = cfg.n := by rw [hhid]; simp
      refine ⟨hdl, i, hi, by rw [hsl], ?_⟩
      rw [hhl]
      apply List.map_congr_left
      intro j hj
      rw [List.mem_range] at hj
      have hgd : st.hidden.getD j true = decide (j ≠ s) := by
        rw [hhid]
        exact getD_range_map _ hj _
      rw [hgd]
      by_cases hjs : j = s
      · subst hjs
        have hji : j ≠ i := fun hcon => hne hcon.symm
        simp [hji]
      · by_cases hji : j = i
        · subst hji
          simp [hjs]
        · simp [hjs, hji]

theorem inv_disableTab (cfg : Config) (st : State) (i : Nat)
    (hinv : Inv cfg st) : Inv cfg (disableTab st i) := by
  obtain ⟨hdl, s, hs, hsel, hhid⟩ := hinv
  exact ⟨by simpa [disableTab] using hdl, s, hs, hsel, hhid⟩

theorem inv_enableTab (cfg : Config) (st : State) (i : Nat)
    (hinv : Inv cfg st) : Inv cfg (enableTab st i) := by
  obtain ⟨hdl, s, hs, hsel, hhid⟩ := hinv
  exact ⟨by simpa [enableTab] using hdl, s, hs, hsel, hhid⟩

theorem inv_triggerTab (cfg : Config) (st : State) (i : Nat)
    (hstd : StdTarget cfg) (hi : i < cfg.n) (hinv : Inv cfg st) :
    Inv cfg (triggerTab cfg st i) := by
  cases ht : cfg.target i with
  | none => rw [triggerTab_of_no_target cfg st i ht]; exact hinv
  | some t =>
      rw [triggerTab_of_target cfg st i t ht]
      by_cases hc : (st.hidden.getD t true && !(st.disabled.getD i false)) = true
      · rw [if_pos hc]
        exact inv_click cfg st i hstd hi hinv
      · rw [if_neg hc]
        exact hinv

theorem inv_applyOp (cfg : Config) (st : State) (op : Op)
    (hstd : StdTarget cfg) (hinv : Inv cfg st) :
    Inv cfg (applyOp cfg st op) := by
  cases op with
  | clickTab i =>
      by_cases hi : i < cfg.n
      · rw [applyOp, if_pos hi]
        exact inv_click cfg st i hstd hi hinv
      · rw [applyOp, if_neg hi]
        exact hinv
  | trigger p =>
      rw [applyOp, triggerTabCmd]
      by_cases hp : cmdIndex p < cfg.n
      · rw [if_pos hp]
        exact inv_triggerTab cfg st (cmdIndex p) hstd hp hinv
      · rw [if_neg hp]
        exact hinv
  | disable p =>
      rw [applyOp, disableTabCmd]
      by_cases hp : cmdIndex p < cfg.n
      · rw [if_pos hp]
        exact inv_disableTab cfg st (cmdIndex p) hinv
      · rw [if_neg hp]
        exact hinv
  | enable p =>
      rw [applyOp, enableTabCmd]
      by_cases hp : cmdIndex p < cfg.n
      · rw [if_pos hp]
        exact inv_enableTab cfg st (cmdIndex p) hinv
      · rw [if_neg hp]
        exact hinv

theorem inv_run (cfg : Config) (st : State) (ops : List Op)
    (hstd : StdTarget cfg) (hinv : Inv cfg st) :
    Inv cfg (run cfg st ops) := by
  induction ops generalizing st with
  | nil => exact hinv
  | cons op rest ih =>
      exact ih (applyOp cfg st op) (inv_applyOp cfg st op hstd hinv)

theorem applyDisabledLoop_fields (n : Nat) (ds : List Int) (st : State) :
    (applyDisabledLoop n st ds).selected = st.selected ∧
    (applyDisabledLoop n st ds).hidden = st.hidden ∧
    (applyDisabledLoop n st ds).disabled.length = st.disabled.length := by
  induction ds generalizing st with
  | nil => exact ⟨rfl, rfl, rfl⟩
  | cons d rest ih =>
      rw [applyDisabledLoop]
      by_cases hc : 0 ≤ d - 1 ∧ d - 1 < (n : Int)
      · rw [if_pos hc]
        obtain ⟨h1, h2, h3⟩ := ih (disableTab st (d - 1).toNat)
        exact ⟨h1, h2, by rw [h3]; simp [disableTab]⟩
      · rw [if_neg hc]
        exact ih st

theorem initState_fields (c : Container) (locHash : Option String)
    (p : Option Int) (ds : List Int) :
    (initState c locHash p ds).selected
      = (List.range c.cfg.n).map
          (fun k => decide (k = initialIndex p c.hashes locHash)) ∧
    (initState c locHash p ds).hidden
      = (List.range c.cfg.m).map
          (fun j => decide (j ≠ initialIndex p c.hashes locHash)) ∧
    (initState c locHash p ds).disabled.length = c.cfg.n := by
  rw [initState, initContainer]
  obtain ⟨h1, h2, h3⟩ := applyDisabledLoop_fields c.cfg.n (mkSettings p ds).disabled
    { selected := (List.range c.cfg.n).map
        (fun k => decide (k = hashInitial c.hashes locHash (mkSettings p ds).initial))
      disabled := (List.range c.cfg.n).map (fun _ => false)
      hidden := (List.range c.cfg.m).map
        (fun j => decide (j ≠ hashInitial c.hashes locHash (mkSettings p ds).initial)) }
  refine ⟨?_, ?_, ?_⟩
  · rw [h1]
    rfl
  · rw [h2]
    rfl
  · rw [h3]
    simp

theorem inv_initState (c : Container) (locHash : Option String)
    (p : Option Int) (ds : List Int) (hstd : StdTarget c.cfg)
    (hinit : initialIndex p c.hashes locHash < c.cfg.n) :
    Inv c.cfg (initState c locHash p ds) := by
  obtain ⟨h1, h2, h3⟩ := initState_fields c locHash p ds
  exact ⟨h3, initialIndex p c.hashes locHash, hinit, h1, by rw [h2, hstd.1]⟩

theorem counts_of_inv (cfg : Config) (st : State) (hinv : Inv cfg st) :
    selCount st = 1 ∧ visCount st = 1 := by
  obtain ⟨_, s, hs, hsel, hhid⟩ := hinv
  constructor
  · rw [selCount, hsel]
    exact count_true_selected hs
  · rw [visCount, hhid]
    exact count_false_hidden hs

end Tabs

namespace Tabs

/-! ## Hash matching, alert, and frame helper lemmas -/

theorem hashMatch_of_mem {hashes : List String} {h : String} (hmem : h ∈ hashes) :
    ∃ i, hashMatch hashes h = some i ∧ hashes[i]? = some h := by
  induction hashes with
  | nil => cases hmem
  | cons a rest ih =>
      by_cases hah : a = h
      · exact ⟨0, by rw [hashMatch, if_pos hah], by simp [hah]⟩
      · have hmem' : h ∈ rest := by
          rcases List.mem_cons.mp hmem with h1 | h2
          · exact absurd h1.symm hah
          · exact h2
        obtain ⟨i, h1, h2⟩ := ih hmem'
        refine ⟨i + 1, ?_, by simpa using h2⟩
        rw [hashMatch, if_neg hah, h1]
        rfl

theorem hashMatch_of_not_mem {hashes : List String} {h : String}
    (hmem : h ∉ hashes) : hashMatch hashes h = none := by
  induction hashes with
  | nil => rfl
  | cons a rest ih =>
      have hah : ¬ a = h := fun hc => hmem (by rw [← hc]; exact List.mem_cons_self a rest)
      rw [hashMatch, if_neg hah, ih (fun hc => hmem (List.mem_cons_of_mem a hc))]
      rfl

theorem clickAlert_of_disabled (cfg : Config) (st : State) (k : Nat)
    (hd : st.disabled.getD k false = true) : clickAlert cfg st k = false := by
  unfold clickAlert
  rw [if_pos hd]

theorem clickAlert_of_selected (cfg : Config) (st : State) (k : Nat)
    (hd : st.disabled.getD k false = false)
    (hs : st.selected.getD k false = true) : clickAlert cfg st k = false := by
  unfold clickAlert
  rw [if_neg (by rw [hd]; simp), if_pos hs]

theorem clickAlert_of_no_target (cfg : Config) (st : State) (k : Nat)
    (hd : st.disabled.getD k false = false)
    (hs : st.selected.getD k false = false)
    (ht : cfg.target k = none) : clickAlert cfg st k = true := by
  unfold clickAlert
  rw [if_neg (by rw [hd]; simp), if_neg (by rw [hs]; simp), ht]

theorem clickAlert_of_target (cfg : Config) (st : State) (k t : Nat)
    (ht : cfg.target k = some t) : clickAlert cfg st k = false := by
  unfold clickAlert
  rw [ht]
  by_cases hdj : st.disabled.getD k false = true
  · rw [if_pos hdj]
  · rw [if_neg hdj]
    by_cases hsj : st.selected.getD k false = true
    · rw [if_pos hsj]
    · rw [if_neg hsj]

theorem clickAlert_iff (cfg : Config) (st : State) (j : Nat) :
    clickAlert cfg st j = true ↔
      (st.disabled.getD j false = false ∧ st.selected.getD j false = false ∧
        cfg.target j = none) := by
  constructor
  · intro ha
    by_cases hdj : st.disabled.getD j false = true
    · rw [clickAlert_of_disabled cfg st j hdj] at ha
      simp at ha
    · rw [Bool.not_eq_true] at hdj
      by_cases hsj : st.selected.getD j false = true
      · rw [clickAlert_of_selected cfg st j hdj hsj] at ha
        simp at ha
      · rw [Bool.not_eq_true] at hsj
        cases ht : cfg.target j with
        | none => exact ⟨hdj, hsj, rfl⟩
        | some t =>
            rw [clickAlert_of_target cfg st j t ht] at ha
            simp at ha
  · rintro ⟨hdj, hsj, ht⟩
    exact clickAlert_of_no_target cfg st j hdj hsj ht

theorem triggerTabAlert_of_target (cfg : Config) (st : State) (k t : Nat)
    (ht : cfg.target k = some t) :
    triggerTabAlert cfg st k =
      if st.hidden.getD t true && !(st.disabled.getD k false) then
        clickAlert cfg st k
      else false := by
  unfold triggerTabAlert
  rw [ht]

theorem triggerTabAlert_false (cfg : Config) (st : State) (k : Nat) :
    triggerTabAlert cfg st k = false := by
  cases ht : cfg.target k with
  | none => unfold triggerTabAlert; rw [ht]
  | some t =>
      rw [triggerTabAlert_of_target cfg st k t ht]
      by_cases hc : (st.hidden.getD t true && !(st.disabled.getD k false)) = true
      · rw [if_pos hc]
        exact clickAlert_of_target cfg st k t ht
      · rw [if_neg hc]

theorem click_keeps_unselected (cfg : Config) (st : State) (i j : Nat)
    (hd : st.disabled.getD i false = true)
    (hs : st.selected.getD i false = false) :
    (click cfg st j).selected.getD i false = false := by
  by_cases hdj : st.disabled.getD j false = true
  · rw [click_of_disabled cfg st j hdj]
    exact hs
  · rw [Bool.not_eq_true] at hdj
    by_cases hsj : st.selected.getD j false = true
    · rw [click_of_selected cfg st j hdj hsj]
      exact hs
    · rw [Bool.not_eq_true] at hsj
      cases ht : cfg.target j with
      | none =>
          rw [click_of_no_target cfg st j hdj hsj ht]
          exact hs
      | some t =>
          rw [click_of_target cfg st j t hdj hsj ht]
          have hij : i ≠ j := by
            intro hc
            rw [hc, hdj] at hd
            simp at hd
          by_cases hlen : i < st.selected.length
          · rw [getD_range_map _ hlen]
            simp [hij]
          · rw [getD_range_map_of_ge _ (by omega)]

theorem triggerTab_keeps_unselected (cfg : Config) (st : State) (i j : Nat)
    (hd : st.disabled.getD i false = true)
    (hs : st.selected.getD i false = false) :
    (triggerTab cfg st j).selected.getD i false = false := by
  cases ht : cfg.target j with
  | none =>
      rw [triggerTab_of_no_target cfg st j ht]
      exact hs
  | some t =>
      rw [triggerTab_of_target cfg st j t ht]
      by_cases hc : (st.hidden.getD t true && !(st.disabled.getD j false)) = true
      · rw [if_pos hc]
        exact click_keeps_unselected cfg st i j hd hs
      · rw [if_neg hc]
        exact hs

theorem getD_set_self_false (l : List Bool) (k : Nat) :
    (l.set k false).getD k false = false := by
  by_cases hk : k < l.length
  · rw [List.getD_eq_getElem?_getD, List.getElem?_set_self (by simpa using hk)]
    rfl
  · rw [List.set_eq_of_length_le (by omega), List.getD_eq_getElem?_getD,
      List.getElem?_eq_none (by omega)]
    rfl

end Tabs

namespace Tabs

/-! ## Claim theorems -/

/-- C1 counterexample: a one-tab interface (N = 1) initialized with
`$(...).tabs(2)`: the computed initial index 1 is out of range, `li:eq(1)`
and the section filter `:eq(1)` match nothing, so immediately after
initialization no li carries `selectedClass` and no section is visible —
not "exactly one" of each. -/
theorem tabs_invariant_counterexample :
    ¬ (selCount (initState cont1 none (some 2) []) = 1 ∧
       visCount (initState cont1 none (some 2) []) = 1) ∧
    selCount (initState cont1 none (some 2) []) = 0 ∧
    visCount (initState cont1 none (some 2) []) = 0 := by
  decide

/-- C1 (amended): for every tab interface with standard markup whose initial
active index determined at initialization (URL-fragment match, else the
configured position) is within the range of existing tabs, immediately after
initialization and after every completed hide-then-show transition (i.e.
after any sequence of clicks and commands) exactly one tab's li carries the
selected class and exactly one content section is visible (all others carry
the hide class); in particular at most one tab is selected at any settled
state. -/
theorem tabs_selection_visibility_invariant (c : Container)
    (locHash : Option String) (p : Option Int) (ds : List Int) (ops : List Op)
    (hstd : StdTarget c.cfg)
    (hinit : initialIndex p c.hashes locHash < c.cfg.n) :
    selCount (run c.cfg (initState c locHash p ds) ops) = 1 ∧
    visCount (run c.cfg (initState c locHash p ds) ops) = 1 :=
  counts_of_inv c.cfg _
    (inv_run c.cfg _ ops hstd (inv_initState c locHash p ds hstd hinit))

theorem tabs_selection_visibility_invariant_witness :
    selCount (run cfg3 (initState cont3 none (some 2) [3])
      [Op.clickTab 2, Op.disable (some 1), Op.trigger (some 1), Op.enable none]) = 1 ∧
    visCount (run cfg3 (initState cont3 none (some 2) [3])
      [Op.clickTab 2, Op.disable (some 1), Op.trigger (some 1), Op.enable none]) = 1 :=
  tabs_selection_visibility_invariant cont3 none (some 2) [3]
    [Op.clickTab 2, Op.disable (some 1), Op.trigger (some 1), Op.enable none]
    ⟨rfl, fun i => rfl⟩ (by decide)

/-- C2: at initialization, if the page URL fragment equals the fragment of
one of the container's tab links, the first such tab becomes the initial
active tab regardless of the configured position; otherwise the initial
active tab is the configured 1-based position converted to 0-based,
defaulting to the first tab when the position is omitted (or not a number)
or not positive. -/
theorem initial_tab_selection (p : Option Int) (hashes : List String)
    (h : String) (hmem : h ∈ hashes) :
    (∀ q : Option Int,
      initialIndex p hashes (some h) = initialIndex q hashes (some h)) ∧
    hashes[initialIndex p hashes (some h)]? = some h ∧
    (∀ (c : Container) (ds : List Int), c.hashes = hashes →
      (initState c (some h) p ds).selected
        = (List.range c.cfg.n).map
            (fun k => decide (k = initialIndex p hashes (some h)))) ∧
    (∀ h2 : String, h2 ∉ hashes →
      initialIndex p hashes (some h2) = defaultInitial p) ∧
    initialIndex p hashes none = defaultInitial p ∧
    defaultInitial none = 0 ∧
    (∀ v : Int, v ≤ 0 → defaultInitial (some v) = 0) ∧
    (∀ v : Int, 0 < v → defaultInitial (some v) = (v - 1).toNat) := by
  obtain ⟨i, hfind, hget⟩ := hashMatch_of_mem hmem
  have hidx : ∀ q : Option Int, initialIndex q hashes (some h) = i := by
    intro q
    rw [initialIndex, hashInitial, hfind]
    rfl
  refine ⟨?_, ?_, ?_, ?_, rfl, rfl, ?_, ?_⟩
  · intro q
    rw [hidx p, hidx q]
  · rw [hidx p]
    exact hget
  · intro c ds hc
    obtain ⟨h1, _, _⟩ := initState_fields c (some h) p ds
    rw [h1, hc]
  · intro h2 hh2
    rw [initialIndex, hashInitial, hashMatch_of_not_mem hh2]
    rfl
  · intro v hv
    rw [defaultInitial, if_neg (by omega)]
  · intro v hv
    rw [defaultInitial, if_pos hv]

theorem initial_tab_selection_witness :
    ["#a", "#b", "#c"][initialIndex (some 1) ["#a", "#b", "#c"] (some "#c")]?
      = some "#c" :=
  (initial_tab_selection (some 1) ["#a", "#b", "#c"] "#c" (by decide)).2.1

/-- C3: for a tab whose link resolves to section `t`, `triggerTab` is a
no-op when that section is already visible or the tab is disabled; when the
section is hidden and the tab is not disabled it produces exactly the same
end state as a user click on the tab. -/
theorem triggerTab_refines_click (cfg : Config) (st : State) (i t : Nat)
    (ht : cfg.target i = some t) :
    (st.hidden.getD t true = false → triggerTab cfg st i = st) ∧
    (st.disabled.getD i false = true → triggerTab cfg st i = st) ∧
    (st.hidden.getD t true = true → st.disabled.getD i false = false →
      triggerTab cfg st i = click cfg st i) := by
  rw [triggerTab_of_target cfg st i t ht]
  refine ⟨?_, ?_, ?_⟩
  · intro hv
    rw [hv]
    simp
  · intro hd
    rw [hd]
    simp
  · intro hh hd
    rw [hh, hd]
    simp

theorem triggerTab_refines_click_witness :
    triggerTab cfg3 (initState cont3 none none []) 2
      = click cfg3 (initState cont3 none none []) 2 :=
  (triggerTab_refines_click cfg3 (initState cont3 none none []) 2 2
    (by decide)).2.2 (by decide) (by decide)

/-- C4: a click on a disabled tab changes nothing, and an unselected
disabled tab never becomes selected by any event while it stays disabled. -/
theorem disabled_tab_frame (cfg : Config) (st : State) (i : Nat)
    (hd : st.disabled.getD i false = true)
    (hs : st.selected.getD i false = false) :
    click cfg st i = st ∧
    ∀ op : Op, (applyOp cfg st op).disabled.getD i false = true →
      (applyOp cfg st op).selected.getD i false = false := by
  refine ⟨click_of_disabled cfg st i hd, ?_⟩
  intro op _
  cases op with
  | clickTab j =>
      rw [applyOp]
      by_cases hj : j < cfg.n
      · rw [if_pos hj]
        exact click_keeps_unselected cfg st i j hd hs
      · rw [if_neg hj]
        exact hs
  | trigger q =>
      rw [applyOp, triggerTabCmd]
      by_cases hq : cmdIndex q < cfg.n
      · rw [if_pos hq]
        exact triggerTab_keeps_unselected cfg st i (cmdIndex q) hd hs
      · rw [if_neg hq]
        exact hs
  | disable q =>
      rw [applyOp, disableTabCmd]
      by_cases hq : cmdIndex q < cfg.n
      · rw [if_pos hq]
        exact hs
      · rw [if_neg hq]
        exact hs
  | enable q =>
      rw [applyOp, enableTabCmd]
      by_cases hq : cmdIndex q < cfg.n
      · rw [if_pos hq]
        exact hs
      · rw [if_neg hq]
        exact hs

theorem disabled_tab_frame_witness :
    click cfg3 (initState cont3 none none [2]) 1 = initState cont3 none none [2] :=
  (disabled_tab_frame cfg3 (initState cont3 none none [2]) 1
    (by decide) (by decide)).1

/-- C5: clicking a non-disabled, non-selected tab whose target section does
not exist raises the error notification and leaves the state unchanged;
the notification is raised in exactly that situation and never by a
`triggerTab` command. -/
theorem missing_target_error_handling (cfg : Config) (st : State) (i : Nat)
    (hd : st.disabled.getD i false = false)
    (hs : st.selected.getD i false = false)
    (ht : cfg.target i = none) :
    click cfg st i = st ∧
    clickAlert cfg st i = true ∧
    (∀ j : Nat, clickAlert cfg st j = true ↔
      (st.disabled.getD j false = false ∧ st.selected.getD j false = false ∧
        cfg.target j = none)) ∧
    (∀ p : Option Int, triggerTabCmdAlert cfg st p = false) := by
  refine ⟨click_of_no_target cfg st i hd hs ht,
    clickAlert_of_no_target cfg st i hd hs ht,
    fun j => clickAlert_iff cfg st j, ?_⟩
  intro p
  rw [triggerTabCmdAlert]
  by_cases hp : cmdIndex p < cfg.n
  · rw [if_pos hp]
    exact triggerTabAlert_false cfg st (cmdIndex p)
  · rw [if_neg hp]

theorem missing_target_error_handling_witness :
    click cfgGap { selected := [false], disabled := [false], hidden := [] } 0
      = { selected := [false], disabled := [false], hidden := [] } :=
  (missing_target_error_handling cfgGap
    { selected := [false], disabled := [false], hidden := [] } 0
    (by decide) (by decide) rfl).1

/-- C6 counterexample: position 0 is outside the 1-based position range of
a 3-tab interface, yet the `disableTab` command with argument 0 is not a
no-op: the index computation falls back to 0 and the first tab is
disabled. -/
theorem cmd_zero_position_counterexample :
    disableTabCmd cfg3 (initState cont3 none none []) (some 0)
      ≠ initState cont3 none none [] := by
  decide

/-- C6 (amended): each of the three commands accepts a 1-based position
defaulting to the first tab when omitted and applies to the tab at the
computed 0-based index; positions greater than the number of tabs are
no-ops because no element matches, while zero or negative positions fall
back to the first tab (index 0) instead of being no-ops. -/
theorem cmd_position_dispatch (cfg : Config) (st : State) :
    cmdIndex none = 0 ∧
    (∀ v : Int, 0 < v → cmdIndex (some v) = (v - 1).toNat) ∧
    (∀ v : Int, v ≤ 0 → cmdIndex (some v) = 0) ∧
    (∀ v : Int, (cfg.n : Int) < v →
      triggerTabCmd cfg st (some v) = st ∧
      disableTabCmd cfg st (some v) = st ∧
      enableTabCmd cfg st (some v) = st) ∧
    (∀ p : Option Int, cmdIndex p < cfg.n →
      triggerTabCmd cfg st p = triggerTab cfg st (cmdIndex p) ∧
      disableTabCmd cfg st p = disableTab st (cmdIndex p) ∧
      enableTabCmd cfg st p = enableTab st (cmdIndex p)) := by
  refine ⟨rfl, ?_, ?_, ?_, ?_⟩
  · intro v hv
    rw [cmdIndex, if_pos hv]
  · intro v hv
    rw [cmdIndex, if_neg (by omega)]
  · intro v hv
    have hge : ¬ (cmdIndex (some v) < cfg.n) := by
      rw [cmdIndex, if_pos (by omega)]
      omega
    exact ⟨by rw [triggerTabCmd, if_neg hge],
      by rw [disableTabCmd, if_neg hge],
      by rw [enableTabCmd, if_neg hge]⟩
  · intro p hp
    exact ⟨by rw [triggerTabCmd, if_pos hp],
      by rw [disableTabCmd, if_pos hp],
      by rw [enableTabCmd, if_pos hp]⟩

theorem cmd_position_dispatch_witness :
    disableTabCmd cfg3 (initState cont3 none none []) (some 5)
      = initState cont3 none none [] :=
  ((cmd_position_dispatch cfg3 (initState cont3 none none [])).2.2.2.1 5
    (by decide)).2.1

/-- C7 counterexample: with bookmarking enabled and tab 0 disabled, the
click handler returns `false` (suppressing default navigation) although
bookmarking is enabled — so the handler does not always return the
bookmarkable flag. -/
theorem click_return_counterexample :
    cfgBook.bookmarkable = true ∧
    clickRet cfgBook
      { selected := [false, true, false], disabled := [true, false, false],
        hidden := [true, false, true] } 0 = false := by
  decide

/-- C7 (amended): for a click on a non-disabled tab the handler returns the
bookmarkable flag, so default navigation (the fragment update) happens iff
bookmarking is enabled; a click on a disabled tab returns `false` — and
changes nothing — even when bookmarking is enabled. -/
theorem click_return_value (cfg : Config) (st : State) (i : Nat) :
    (st.disabled.getD i false = false → clickRet cfg st i = cfg.bookmarkable) ∧
    (st.disabled.getD i false = true →
      clickRet cfg st i = false ∧ click cfg st i = st) := by
  constructor
  · intro hd
    rw [clickRet, if_neg (by rw [hd]; simp)]
  · intro hd
    exact ⟨by rw [clickRet, if_pos hd], click_of_disabled cfg st i hd⟩

theorem click_return_value_witness :
    clickRet cfgBook
      { selected := [false, true, false], disabled := [true, false, false],
        hidden := [true, false, true] } 1 = cfgBook.bookmarkable :=
  (click_return_value cfgBook
    { selected := [false, true, false], disabled := [true, false, false],
      hidden := [true, false, true] } 1).1 (by decide)

/-- C8: `disable(p)` followed by `enable(p)` leaves the tab at `p`
non-disabled (clickable) and alters neither the selection nor the visible
sections; both commands are idempotent. -/
theorem disable_enable_roundtrip (cfg : Config) (st : State) (p : Option Int) :
    (enableTabCmd cfg (disableTabCmd cfg st p) p).selected = st.selected ∧
    (enableTabCmd cfg (disableTabCmd cfg st p) p).hidden = st.hidden ∧
    (cmdIndex p < cfg.n →
      (enableTabCmd cfg (disableTabCmd cfg st p) p).disabled.getD
        (cmdIndex p) false = false) ∧
    disableTabCmd cfg (disableTabCmd cfg st p) p = disableTabCmd cfg st p ∧
    enableTabCmd cfg (enableTabCmd cfg st p) p = enableTabCmd cfg st p := by
  by_cases hp : cmdIndex p < cfg.n
  · have hdis : ∀ s : State, disableTabCmd cfg s p = disableTab s (cmdIndex p) :=
      fun s => by rw [disableTabCmd, if_pos hp]
    have hena : ∀ s : State, enableTabCmd cfg s p = enableTab s (cmdIndex p) :=
      fun s => by rw [enableTabCmd, if_pos hp]
    simp only [hdis, hena]
    refine ⟨rfl, rfl, fun _ => ?_, ?_, ?_⟩
    · show ((st.disabled.set (cmdIndex p) true).set (cmdIndex p) false).getD
        (cmdIndex p) false = false
      rw [List.set_set]
      exact getD_set_self_false st.disabled (cmdIndex p)
    · cases st
      simp [disableTab, List.set_set]
    · cases st
      simp [enableTab, List.set_set]
  · have hdis : ∀ s : State, disableTabCmd cfg s p = s :=
      fun s => by rw [disableTabCmd, if_neg hp]
    have hena : ∀ s : State, enableTabCmd cfg s p = s :=
      fun s => by rw [enableTabCmd, if_neg hp]
    simp only [hdis, hena]
    exact ⟨trivial, trivial, fun hc => absurd hc hp, trivial, trivial⟩

theorem disable_enable_roundtrip_witness :
    (enableTabCmd cfg3 (disableTabCmd cfg3 (initState cont3 none none []) (some 2))
      (some 2)).disabled.getD (cmdIndex (some 2)) false = false :=
  (disable_enable_roundtrip cfg3 (initState cont3 none none []) (some 2)).2.2.1
    (by decide)

/-- C9: evaluation at the failing input `.tabs({disabled: [2]})` applied
to a selection of two 3-tab containers: the shared settings object is
destructively mutated (`--settings.disabled[i]`, and `settings.initial`
from the hash match), so the second container has its FIRST tab disabled
instead of its second; initializing the same container alone disables its
second tab.  Likewise, a hash match in the first container leaks its index
into the second container's initial selection. -/
theorem shared_settings_divergence :
    (initMany [cont3, contX] none (mkSettings none [2])).map State.disabled
      = [[false, true, false], [true, false, false]] ∧
    (initMany [contX] none (mkSettings none [2])).map State.disabled
      = [[false, true, false]] ∧
    (initMany [cont3, contX] (some "#b") (mkSettings none [])).map State.selected
      = [[false, true, false], [false, true, false]] ∧
    (initMany [contX] (some "#b") (mkSettings none [])).map State.selected
      = [[true, false, false]] := by
  decide

/-- C10: a `triggerTab`, `disableTab` or `enableTab` command whose position
argument is zero, negative, or omitted (not a positive number) applies to
the first tab (index 0) rather than being a no-op, because the index
computation falls back to 0. -/
theorem cmd_nonpositive_position_first_tab (cfg : Config) (st : State)
    (v : Int) (hv : v ≤ 0) :
    cmdIndex (some v) = 0 ∧ cmdIndex none = 0 ∧
    (0 < cfg.n →
      triggerTabCmd cfg st (some v) = triggerTab cfg st 0 ∧
      disableTabCmd cfg st (some v) = disableTab st 0 ∧
      enableTabCmd cfg st (some v) = enableTab st 0) := by
  have h0 : cmdIndex (some v) = 0 := by
    rw [cmdIndex, if_neg (by omega)]
  refine ⟨h0, rfl, fun hn => ⟨?_, ?_, ?_⟩⟩
  · rw [triggerTabCmd, h0, if_pos hn]
  · rw [disableTabCmd, h0, if_pos hn]
  · rw [enableTabCmd, h0, if_pos hn]

theorem cmd_nonpositive_position_first_tab_witness :
    disableTabCmd cfg3 (initState cont3 none none []) (some (-2))
      = disableTab (initState cont3 none none []) 0 :=
  ((cmd_nonpositive_position_first_tab cfg3 (initState cont3 none none [])
    (-2) (by decide)).2.2 (by decide)).2.1

end Tabs
